import Mathlib

/-!
Verification of the sensorflow frame pipeline: the JeeLink frame grammar
(boundary detection in a byte buffer, payload validation and field decoding),
the InfluxDB line-protocol encoder, and the two buffered read loops.

Byte buffers are modelled as List Nat (one entry per byte).  The payloads on
the wire are ASCII, so the Rust character classes (char::is_numeric,
char::is_whitespace, char::is_ascii_control, char::is_control) are embedded by
their restrictions to the ASCII range, where they agree with the byte-level
predicates below.  Rust f32/f64 values are modelled as exact rationals; the
shortest-decimal Display of floats is modelled on the fragment produced by
this program (values with at most one decimal digit).  u16 arithmetic wraps
modulo 2 ^ 16 (release-mode semantics of the shift-and-add in the source).
-/

/-- Start marker of a JeeLink frame, the bytes of "OK 9 " (jeelink.rs line 74). -/
def START_SEQ : List Nat := [79, 75, 32, 57, 32]

/-- End marker of a JeeLink frame, the bytes of CR LF (jeelink.rs line 75). -/
def END_SEQ : List Nat := [13, 10]

/-- Error type of the frame boundary check (input.rs lines 63-69). -/
inductive FrameCheckError where
  | Incomplete : FrameCheckError
  | Other : String → FrameCheckError
  deriving DecidableEq, Repr

/-- The start-marker scan loop of JeeLinkFrame::check (jeelink.rs lines 76-84):
drop leading bytes one at a time until the buffer head starts with START_SEQ;
report failure (Incomplete) as soon as at most START_SEQ.length bytes remain.
Returns the advanced buffer and whether the marker was found at its head. -/
def resync : List Nat → List Nat × Bool
  | [] => ([], false)
  | a :: rest =>
    if (a :: rest).length ≤ START_SEQ.length then (a :: rest, false)
    else if START_SEQ.isPrefixOf (a :: rest) then (a :: rest, true)
    else resync rest

/-- The end-marker scan of JeeLinkFrame::check (jeelink.rs lines 86-89):
index of the first two-byte window equal to END_SEQ, as
buffer.windows(2).enumerate().find(..). -/
def findEnd : List Nat → Option Nat
  | a :: b :: rest =>
    if [a, b] = END_SEQ then some 0 else (findEnd (b :: rest)).map (· + 1)
  | _ => none

/-- JeeLinkFrame::check (jeelink.rs lines 73-98).  Returns the result together
with the buffer as the call leaves it: on success the payload between the
markers is split off and the remainder after the end marker stays buffered;
on Incomplete only the start-marker resynchronization has consumed bytes. -/
def check (buffer : List Nat) : Except FrameCheckError (List Nat) × List Nat :=
  match resync buffer with
  | (buf, true) =>
    match findEnd buf with
    | some i =>
      (Except.ok ((buf.take i).drop START_SEQ.length), buf.drop (i + END_SEQ.length))
    | none => (Except.error FrameCheckError.Incomplete, buf)
  | (buf, false) => (Except.error FrameCheckError.Incomplete, buf)

/-- Rust char::is_numeric restricted to ASCII: the decimal digits. -/
def isNumericB (c : Nat) : Bool := decide (48 ≤ c ∧ c ≤ 57)

/-- Rust char::is_whitespace restricted to ASCII: space and U+0009..U+000D. -/
def isWhitespaceB (c : Nat) : Bool := decide (c = 32 ∨ (9 ≤ c ∧ c ≤ 13))

/-- Rust char::is_ascii_control / char::is_control restricted to ASCII. -/
def isControlB (c : Nat) : Bool := decide (c < 32 ∨ c = 127)

/-- The character class admitted by JeeLinkFrame::validate (jeelink.rs line 61):
numeric, whitespace, or (ascii) control. -/
def frameCharOk (c : Nat) : Bool := isNumericB c || isWhitespaceB c || isControlB c

/-- Validation error type (input.rs lines 71-77). -/
inductive FrameValidation where
  | InvalidChars : List Nat → FrameValidation
  | WrongNumberOfFields : List Nat → FrameValidation
  deriving DecidableEq, Repr

/-- JeeLinkFrame::validate (jeelink.rs lines 57-69): reject any character that
is not numeric, whitespace or control; then require the count of whitespace
characters to be exactly 4. -/
def validate (s : List Nat) : Except FrameValidation Unit :=
  if !(s.all frameCharOk) then
    Except.error (FrameValidation.InvalidChars s)
  else if (s.filter isWhitespaceB).length ≠ 4 then
    Except.error (FrameValidation.WrongNumberOfFields s)
  else
    Except.ok ()

/-- Rust str::split on the space character (jeelink.rs line 104): pieces
between occurrences of byte 32, empty pieces kept. -/
def splitSp : List Nat → List (List Nat)
  | [] => [[]]
  | c :: rest =>
    if c = 32 then [] :: splitSp rest
    else
      match splitSp rest with
      | f :: fs => (c :: f) :: fs
      | [] => [[c]]

/-- Digit-string evaluation used by Rust str::parse for unsigned integers:
fails on an empty string or any non-digit byte. -/
def digitsToNat (l : List Nat) : Option Nat :=
  if l = [] then none
  else if l.all isNumericB then
    some (l.foldl (fun acc c => acc * 10 + (c - 48)) 0)
  else none

/-- Helper of the unsigned-integer parser: drop one leading plus sign (byte
43), as Rust from_str_radix does for unsigned targets. -/
def stripPlus (s : List Nat) : List Nat :=
  match s with
  | a :: rest => if a = 43 then rest else a :: rest
  | [] => []

/-- Rust str::parse::<uN> (an optional leading plus sign, then at least one
digit, value below the type bound; anything else is an error). -/
def parseUInt (bound : Nat) (s : List Nat) : Option Nat :=
  match digitsToNat (stripPlus s) with
  | some v => if v < bound then some v else none
  | none => none

/-- Decoded JeeLink sensor record (jeelink.rs lines 47-54).  The f32
temperature is modelled as an exact rational. -/
structure JeeLinkFrame where
  id : Nat
  sensor_type : Nat
  new_battery : Bool
  weak_battery : Bool
  temperature : ℚ
  humidity : Nat
  deriving DecidableEq, Repr

/-- Decode failure classification for JeeLinkFrame::parse. -/
inductive ParseError where
  | invalidChars : ParseError
  | wrongNumberOfFields : ParseError
  | intParse : ParseError
  deriving DecidableEq, Repr

/-- Outcome of JeeLinkFrame::parse; panic marks an out-of-range index access
fields[i], which in Rust would abort instead of returning an error. -/
inductive ParseOutcome where
  | ok : JeeLinkFrame → ParseOutcome
  | error : ParseError → ParseOutcome
  | panic : ParseOutcome
  deriving DecidableEq, Repr

/-- The field-decoding cascade of JeeLinkFrame::parse (jeelink.rs lines
104-135), after validation: split on spaces, then index and integer-parse the
five fields in source order.  fields[0] is the id (u8); fields[1] packs
new_battery and sensor_type; fields[2] and fields[3] are combined as
(field1 << 8) + field2 in wrapping u16 arithmetic and shifted into the
temperature; fields[4] packs weak_battery and humidity. -/
def parseFields (fields : List (List Nat)) : ParseOutcome :=
  match fields[0]? with
  | none => ParseOutcome.panic
  | some f0 =>
  match parseUInt 256 f0 with
  | none => ParseOutcome.error ParseError.intParse
  | some id =>
  match fields[1]? with
  | none => ParseOutcome.panic
  | some f1 =>
  match parseUInt 256 f1 with
  | none => ParseOutcome.error ParseError.intParse
  | some flags1 =>
  match fields[2]? with
  | none => ParseOutcome.panic
  | some f2 =>
  match parseUInt 65536 f2 with
  | none => ParseOutcome.error ParseError.intParse
  | some field1 =>
  match fields[3]? with
  | none => ParseOutcome.panic
  | some f3 =>
  match parseUInt 65536 f3 with
  | none => ParseOutcome.error ParseError.intParse
  | some field2 =>
  match fields[4]? with
  | none => ParseOutcome.panic
  | some f4 =>
  match parseUInt 256 f4 with
  | none => ParseOutcome.error ParseError.intParse
  | some flags2 =>
  ParseOutcome.ok
    { id := id
      sensor_type := flags1 % 128
      new_battery := flags1 / 128 != 0
      weak_battery := flags2 &&& 128 != 0
      temperature := ((((field1 * 256) % 65536 + field2) % 65536 : Nat) - (1000 : ℚ)) / 10
      humidity := flags2 &&& 127 }

/-- JeeLinkFrame::parse (jeelink.rs lines 100-135): validate, then decode the
space-separated fields.  (A buffer that is not valid UTF-8 fails in Rust with
a Utf8Error; in this ASCII model its bytes at or above 0x80 fail the character
validation instead — an error either way, never a decoded record.) -/
def parse (buffer : List Nat) : ParseOutcome :=
  match validate buffer with
  | Except.error (FrameValidation.InvalidChars _) => ParseOutcome.error ParseError.invalidChars
  | Except.error (FrameValidation.WrongNumberOfFields _) =>
      ParseOutcome.error ParseError.wrongNumberOfFields
  | Except.ok () => parseFields (splitSp buffer)

/-- Typed values of the line protocol (output.rs lines 26-33); the String
constructor of the source is named Str here, f64 is modelled as a rational. -/
inductive LineProtocolValue where
  | Float : ℚ → LineProtocolValue
  | Integer : Int → LineProtocolValue
  | UInteger : Nat → LineProtocolValue
  | Str : String → LineProtocolValue
  | Boolean : Bool → LineProtocolValue
  | Tag : String → LineProtocolValue
  deriving DecidableEq, Repr

/-- Rust Display of an f64 (the empty format of write!), modelled for the
values this program produces: integral values print without a decimal point,
values with exactly one decimal digit print as intpart.digit. -/
def fmtFloat (q : ℚ) : String :=
  if q.den = 1 then toString q.num
  else if (q * 10).den = 1 then
    (if (q * 10).num < 0 then "-" else "")
      ++ toString ((q * 10).num.natAbs / 10) ++ "." ++ toString ((q * 10).num.natAbs % 10)
  else toString q.num ++ "/" ++ toString q.den

/-- Display for LineProtocolValue (output.rs lines 35-46): floats as decimal
text, signed integers with an i suffix, unsigned with a u suffix, strings
double-quoted, booleans as true/false literals, tag values raw. -/
def LineProtocolValue.render : LineProtocolValue → String
  | LineProtocolValue.Float x => fmtFloat x
  | LineProtocolValue.Integer x => toString x ++ "i"
  | LineProtocolValue.UInteger x => toString x ++ "u"
  | LineProtocolValue.Str x => "\"" ++ x ++ "\""
  | LineProtocolValue.Boolean x => if x then "true" else "false"
  | LineProtocolValue.Tag x => x

/-- A key/value entry of a point (output.rs line 78). -/
structure Item where
  name : String
  value : LineProtocolValue
  deriving DecidableEq, Repr

/-- Display for Item (output.rs lines 80-84): key=value. -/
def Item.render (it : Item) : String := it.name ++ "=" ++ it.value.render

/-- The line-protocol point builder state (output.rs lines 90-95).  The
timestamp is the nanosecond epoch value that chrono timestamp_nanos yields. -/
structure LineProtocol where
  measurement : String
  tags : List Item
  values : List Item
  time : Option Int
  deriving DecidableEq, Repr

/-- LineProtocol::new (output.rs lines 98-105). -/
def LineProtocol.new (m : String) : LineProtocol :=
  { measurement := m, tags := [], values := [], time := none }

/-- LineProtocol::add_tag (output.rs lines 107-113); the Display-formatted tag
value arrives here already rendered to a string. -/
def LineProtocol.add_tag (lp : LineProtocol) (name : String) (tag : String) : LineProtocol :=
  { lp with tags := lp.tags ++ [{ name := name, value := LineProtocolValue.Tag tag }] }

/-- LineProtocol::add_value (output.rs lines 115-121). -/
def LineProtocol.add_value (lp : LineProtocol) (name : String) (v : LineProtocolValue) :
    LineProtocol :=
  { lp with values := lp.values ++ [{ name := name, value := v }] }

/-- LineProtocol::add_time (output.rs lines 123-126). -/
def LineProtocol.add_time (lp : LineProtocol) (t : Option Int) : LineProtocol :=
  { lp with time := t }

/-- Display for LineProtocolTime (output.rs lines 11-18): a leading space and
the nanosecond timestamp when present, nothing when absent. -/
def renderTime : Option Int → String
  | some t => " " ++ toString t
  | none => ""

/-- Display for LineProtocol (output.rs lines 129-146): measurement, a
comma-prefixed entry per tag, a space, the comma-joined field entries, then
the optional timestamp. -/
def LineProtocol.render (lp : LineProtocol) : String :=
  lp.measurement ++ String.join (lp.tags.map (fun it => "," ++ it.render)) ++ " "
    ++ String.intercalate "," (lp.values.map Item.render) ++ renderTime lp.time

/-- JeeLinkFrame::to_lineprotocol (jeelink.rs lines 150-161).  The source
reads the wall clock (Utc::now) at conversion time; the clock value is passed
in here as the now argument, and is always attached as the timestamp. -/
def JeeLinkFrame.to_lineprotocol (f : JeeLinkFrame) (now : Int) : LineProtocol :=
  ((((((LineProtocol.new "tempHum").add_tag "sensorId" (toString f.id)).add_tag
    "sensorType" (toString f.sensor_type)).add_value "temperature"
    (LineProtocolValue.Float f.temperature)).add_value "humidity"
    (LineProtocolValue.UInteger f.humidity)).add_value "weak_battery"
    (LineProtocolValue.Boolean f.weak_battery)).add_value "new_battery"
    (LineProtocolValue.Boolean f.new_battery) |>.add_time (some now)

/-- One result of the byte source consumed by a read loop: a successful read
delivering the given bytes (possibly none), a timeout, or another I/O error. -/
inductive ReadOutcome where
  | ok : List Nat → ReadOutcome
  | timedOut : ReadOutcome
  | ioErr : ReadOutcome
  deriving DecidableEq, Repr

/-- Result of one FramedListener::parse step (input.rs lines 26-37). -/
inductive ListenerStep where
  | frame : JeeLinkFrame → ListenerStep
  | noFrame : ListenerStep
  | failed : ListenerStep
  | panicked : ListenerStep
  deriving DecidableEq, Repr

/-- FramedListener::parse (input.rs lines 26-37): run check on the buffer; on
a complete frame decode it (propagating decode failures), on Incomplete report
that no frame is ready yet.  The mutated buffer is returned alongside. -/
def listenerParse (buffer : List Nat) : ListenerStep × List Nat :=
  match check buffer with
  | (Except.ok payload, buf2) =>
    match parse payload with
    | ParseOutcome.ok f => (ListenerStep.frame f, buf2)
    | ParseOutcome.error _ => (ListenerStep.failed, buf2)
    | ParseOutcome.panic => (ListenerStep.panicked, buf2)
  | (Except.error FrameCheckError.Incomplete, buf2) => (ListenerStep.noFrame, buf2)
  | (Except.error (FrameCheckError.Other _), buf2) => (ListenerStep.failed, buf2)

/-- Observable result of a read_frame call, the byte source being modelled as
a finite script of read outcomes.  noMoreReads is the model artifact for a
loop still awaiting its next read when the script is exhausted. -/
inductive ReadFrameResult where
  | frame : JeeLinkFrame → ReadFrameResult
  | streamEnded : ReadFrameResult
  | connectionLost : ReadFrameResult
  | parseError : ReadFrameResult
  | panicked : ReadFrameResult
  | ioError : ReadFrameResult
  | noMoreReads : ReadFrameResult
  deriving DecidableEq, Repr

/-- Dispatch on one FramedListener::parse result inside a read loop: a
decoded frame, a decode failure, or a panic ends the loop; on no-frame the
loop continues with the parse-advanced buffer. -/
def loopStep (res : ListenerStep × List Nat) (onNoFrame : List Nat → ReadFrameResult) :
    ReadFrameResult :=
  match res with
  | (ListenerStep.frame f, _) => ReadFrameResult.frame f
  | (ListenerStep.failed, _) => ReadFrameResult.parseError
  | (ListenerStep.panicked, _) => ReadFrameResult.panicked
  | (ListenerStep.noFrame, buf2) => onNoFrame buf2

/-- FramedListener<SerialStream, F>::read_frame (input.rs lines 89-109): loop
parsing the buffer; a read of zero bytes ends the loop — cleanly when the
buffer is empty, with ConnectionLost when bytes of a partial frame remain;
read errors (timeouts included) propagate; otherwise append the read bytes
and retry. -/
def readFrameSerialStream : List ReadOutcome → List Nat → ReadFrameResult
  | [], buffer => loopStep (listenerParse buffer) (fun _ => ReadFrameResult.noMoreReads)
  | ReadOutcome.ok bs :: rest, buffer =>
    loopStep (listenerParse buffer) (fun buf2 =>
      if bs = [] then
        if buf2 = [] then ReadFrameResult.streamEnded else ReadFrameResult.connectionLost
      else readFrameSerialStream rest (buf2 ++ bs))
  | ReadOutcome.timedOut :: _, buffer =>
    loopStep (listenerParse buffer) (fun _ => ReadFrameResult.ioError)
  | ReadOutcome.ioErr :: _, buffer =>
    loopStep (listenerParse buffer) (fun _ => ReadFrameResult.ioError)

/-- FramedListener<TTYPort, F>::read_frame (input.rs lines 111-130): loop
parsing the buffer; a read of zero bytes or a timeout is no progress and the
loop retries; other read errors propagate; delivered bytes are appended. -/
def readFrameTTYPort : List ReadOutcome → List Nat → ReadFrameResult
  | [], buffer => loopStep (listenerParse buffer) (fun _ => ReadFrameResult.noMoreReads)
  | ReadOutcome.ok bs :: rest, buffer =>
    loopStep (listenerParse buffer) (fun buf2 =>
      if bs = [] then readFrameTTYPort rest buf2 else readFrameTTYPort rest (buf2 ++ bs))
  | ReadOutcome.timedOut :: rest, buffer =>
    loopStep (listenerParse buffer) (fun buf2 => readFrameTTYPort rest buf2)
  | ReadOutcome.ioErr :: _, buffer =>
    loopStep (listenerParse buffer) (fun _ => ReadFrameResult.ioError)

/-- Modelled from the spec: the whitespace-separated fields of a payload in
the sense of section 4.1 — the maximal nonempty runs of non-whitespace
characters ("whose whitespace-separated field count is not exactly 5").
This is the comparison definition for the validation claim; the source
validates by counting whitespace characters instead. -/
def splitWsRuns : List Nat → List (List Nat)
  | [] => [[]]
  | c :: rest =>
    if isWhitespaceB c then [] :: splitWsRuns rest
    else
      match splitWsRuns rest with
      | f :: fs => (c :: f) :: fs
      | [] => [[c]]

/-- Modelled from the spec: the whitespace-separated field count of a payload
(section 4.1 and the C4 sources). -/
def wsFieldCount (b : List Nat) : Nat :=
  ((splitWsRuns b).filter (fun f => !f.isEmpty)).length

/-! ### Lemmas about the start-marker scan -/

theorem resync_suffix (b : List Nat) : (resync b).1 <:+ b := by
  induction b with
  | nil => exact List.suffix_refl _
  | cons a rest ih =>
    rw [resync]
    by_cases h1 : (a :: rest).length ≤ START_SEQ.length
    · rw [if_pos h1]
    · rw [if_neg h1]
      by_cases h2 : START_SEQ.isPrefixOf (a :: rest) = true
      · rw [if_pos h2]
      · rw [if_neg h2]
        exact ih.trans (List.suffix_cons a rest)

theorem resync_found (b : List Nat) (h : (resync b).2 = true) :
    START_SEQ <+: (resync b).1 ∧ START_SEQ.length < (resync b).1.length := by
  induction b with
  | nil => simp [resync] at h
  | cons a rest ih =>
    by_cases h1 : (a :: rest).length ≤ START_SEQ.length
    · rw [resync, if_pos h1] at h
      simp at h
    · by_cases h2 : START_SEQ.isPrefixOf (a :: rest) = true
      · rw [resync, if_neg h1, if_pos h2]
        exact ⟨List.isPrefixOf_iff_prefix.mp h2, Nat.lt_of_not_le h1⟩
      · rw [resync, if_neg h1, if_neg h2] at h ⊢
        exact ih h

theorem resync_not_found (b : List Nat) (h : (resync b).2 = false) :
    (resync b).1.length ≤ START_SEQ.length := by
  induction b with
  | nil => simp [resync, START_SEQ]
  | cons a rest ih =>
    by_cases h1 : (a :: rest).length ≤ START_SEQ.length
    · rw [resync, if_pos h1]
      exact h1
    · by_cases h2 : START_SEQ.isPrefixOf (a :: rest) = true
      · rw [resync, if_neg h1, if_pos h2] at h
        simp at h
      · rw [resync, if_neg h1, if_neg h2] at h ⊢
        exact ih h

theorem resync_of_short (b : List Nat) (h : b.length ≤ START_SEQ.length) :
    resync b = (b, false) := by
  cases b with
  | nil => rfl
  | cons a rest => rw [resync, if_pos h]

theorem resync_of_marker (b : List Nat) (hpre : START_SEQ <+: b)
    (hlen : START_SEQ.length < b.length) : resync b = (b, true) := by
  cases b with
  | nil => simp at hlen
  | cons a rest =>
    rw [resync, if_neg (by omega), if_pos (List.isPrefixOf_iff_prefix.mpr hpre)]

theorem resync_append (g u : List Nat) (hg : ¬ START_SEQ <:+: g) (hu : u ≠ []) :
    resync (g ++ (START_SEQ ++ u)) = (START_SEQ ++ u, true) := by
  induction g with
  | nil =>
    rw [List.nil_append]
    refine resync_of_marker _ (List.prefix_append _ _) ?_
    cases u with
    | nil => exact absurd rfl hu
    | cons x xs => simp [START_SEQ]
  | cons c g' ih =>
    have hg' : ¬ START_SEQ <:+: g' := fun h => hg (List.infix_cons h)
    have hlen : ¬ (c :: (g' ++ (START_SEQ ++ u))).length ≤ START_SEQ.length := by
      simp [START_SEQ]
      omega
    have hpre : ¬ START_SEQ.isPrefixOf (c :: (g' ++ (START_SEQ ++ u))) = true := by
      intro h
      obtain ⟨w, hw⟩ := List.isPrefixOf_iff_prefix.mp h
      rcases g' with _ | ⟨a1, _ | ⟨a2, _ | ⟨a3, _ | ⟨a4, g5⟩⟩⟩⟩
      · simp [START_SEQ] at hw
      · simp [START_SEQ] at hw
      · simp [START_SEQ] at hw
      · simp [START_SEQ] at hw
      · simp [START_SEQ] at hw
        obtain ⟨e1, e2, e3, e4, e5, -⟩ := hw
        subst e1; subst e2; subst e3; subst e4; subst e5
        exact hg ⟨[], g5, by simp [START_SEQ]⟩
    rw [List.cons_append, resync, if_neg hlen, if_neg hpre]
    exact ih hg'

/-! ### Lemmas about the end-marker scan -/

theorem findEnd_append (l r : List Nat) (hl : ¬ END_SEQ <:+: l) :
    findEnd (l ++ 13 :: 10 :: r) = some l.length := by
  induction l with
  | nil => simp [findEnd, END_SEQ]
  | cons a l' ih =>
    cases l' with
    | nil =>
      have hne : ¬ ([a, 13] = END_SEQ) := by simp [END_SEQ]
      simp [findEnd, hne, END_SEQ]
    | cons b l'' =>
      have hl' : ¬ END_SEQ <:+: (b :: l'') := fun h => hl (List.infix_cons h)
      by_cases hc : [a, b] = END_SEQ
      · exfalso
        apply hl
        simp [END_SEQ] at hc
        exact ⟨[], l'', by simp [END_SEQ, hc.1, hc.2]⟩
      · rw [List.cons_append, List.cons_append, findEnd, if_neg hc,
          ← List.cons_append, ih hl']
        simp

theorem endseq_of_findEnd_some (l : List Nat) (i : Nat) (h : findEnd l = some i) :
    END_SEQ <:+: l := by
  induction l generalizing i with
  | nil => simp [findEnd] at h
  | cons a l' ih =>
    cases l' with
    | nil => simp [findEnd] at h
    | cons b l'' =>
      by_cases hc : [a, b] = END_SEQ
      · simp [END_SEQ] at hc
        exact ⟨[], l'', by simp [END_SEQ, hc.1, hc.2]⟩
      · rw [findEnd, if_neg hc] at h
        cases hi : findEnd (b :: l'') with
        | none => rw [hi] at h; simp at h
        | some j => exact List.infix_cons (ih j hi)

theorem endseq_not_infix_marker_payload (p : List Nat) (hp : ¬ END_SEQ <:+: p) :
    ¬ END_SEQ <:+: (START_SEQ ++ p) := by
  intro h
  obtain ⟨s, t, hst⟩ := h
  rcases s with _ | ⟨a1, _ | ⟨a2, _ | ⟨a3, _ | ⟨a4, _ | ⟨a5, s'⟩⟩⟩⟩⟩
  · simp [START_SEQ, END_SEQ] at hst
  · simp [START_SEQ, END_SEQ] at hst
  · simp [START_SEQ, END_SEQ] at hst
  · simp [START_SEQ, END_SEQ] at hst
  · simp [START_SEQ, END_SEQ] at hst
  · simp [START_SEQ, END_SEQ] at hst
    exact hp ⟨s', t, by simpa [END_SEQ] using hst.2.2.2.2.2⟩

/-! ### Shape lemmas for check -/

theorem check_of_short (b : List Nat) (h : b.length ≤ START_SEQ.length) :
    check b = (Except.error FrameCheckError.Incomplete, b) := by
  unfold check
  rw [resync_of_short b h]

theorem check_of_marker_noend (b : List Nat) (hpre : START_SEQ <+: b)
    (hlen : START_SEQ.length < b.length) (hfe : findEnd b = none) :
    check b = (Except.error FrameCheckError.Incomplete, b) := by
  simp only [check, resync_of_marker b hpre hlen, hfe]

theorem check_idem (b : List Nat)
    (h : (check b).1 = Except.error FrameCheckError.Incomplete) :
    check ((check b).2) = (Except.error FrameCheckError.Incomplete, (check b).2) := by
  rcases hr : resync b with ⟨buf, f⟩
  cases f with
  | false =>
    have hlen := resync_not_found b (by rw [hr])
    rw [hr] at hlen
    simp only [check, hr]
    exact check_of_short buf hlen
  | true =>
    have hpre := resync_found b (by rw [hr])
    rw [hr] at hpre
    cases hfe : findEnd buf with
    | some i =>
      exfalso
      simp only [check, hr, hfe] at h
      exact Except.noConfusion h
    | none =>
      simp only [check, hr, hfe]
      exact check_of_marker_noend buf hpre.1 hpre.2 hfe

/-! ### Claim theorems about the frame boundary check -/

/-- C1: on a buffer made of garbage containing no start marker, a well-formed
frame (start marker, payload free of the end marker, end marker), and a
second complete frame, check returns Ok with exactly the first frame's
payload and leaves the buffer byte-for-byte equal to the suffix beginning at
the second frame's start marker. -/
theorem claim_C1_check_extracts_first_frame (g p p2 : List Nat)
    (hg : ¬ START_SEQ <:+: g) (hp : ¬ END_SEQ <:+: p) :
    check (g ++ (START_SEQ ++ p ++ END_SEQ) ++ (START_SEQ ++ p2 ++ END_SEQ)) =
      (Except.ok p, START_SEQ ++ p2 ++ END_SEQ) := by
  have hassoc : g ++ (START_SEQ ++ p ++ END_SEQ) ++ (START_SEQ ++ p2 ++ END_SEQ)
      = g ++ (START_SEQ ++ (p ++ (END_SEQ ++ (START_SEQ ++ p2 ++ END_SEQ)))) := by
    simp [List.append_assoc]
  have hu : p ++ (END_SEQ ++ (START_SEQ ++ p2 ++ END_SEQ)) ≠ [] := by
    simp [END_SEQ]
  have hres := resync_append g (p ++ (END_SEQ ++ (START_SEQ ++ p2 ++ END_SEQ))) hg hu
  have hsplit : START_SEQ ++ (p ++ (END_SEQ ++ (START_SEQ ++ p2 ++ END_SEQ)))
      = (START_SEQ ++ p) ++ (13 :: 10 :: (START_SEQ ++ p2 ++ END_SEQ)) := by
    simp [END_SEQ, List.append_assoc]
  have hfe : findEnd (START_SEQ ++ (p ++ (END_SEQ ++ (START_SEQ ++ p2 ++ END_SEQ))))
      = some (START_SEQ ++ p).length := by
    rw [hsplit]
    exact findEnd_append _ _ (endseq_not_infix_marker_payload p hp)
  have h1 : ((START_SEQ ++ (p ++ (END_SEQ ++ (START_SEQ ++ p2 ++ END_SEQ)))).take
      (START_SEQ ++ p).length).drop START_SEQ.length = p := by
    rw [hsplit, List.take_left, List.drop_left]
  have h2 : (START_SEQ ++ (p ++ (END_SEQ ++ (START_SEQ ++ p2 ++ END_SEQ)))).drop
      ((START_SEQ ++ p).length + END_SEQ.length) = START_SEQ ++ p2 ++ END_SEQ := by
    have he : START_SEQ ++ (p ++ (END_SEQ ++ (START_SEQ ++ p2 ++ END_SEQ)))
        = (START_SEQ ++ p ++ END_SEQ) ++ (START_SEQ ++ p2 ++ END_SEQ) := by
      simp [List.append_assoc]
    rw [he]
    exact List.drop_left' (List.length_append _ _)
  rw [hassoc]
  simp only [check, hres, hfe, h1, h2]

/-- Witness for C1 at the buffer "4" ++ "OK 9 93\r\n" ++ "OK 9 2\r\n". -/
theorem claim_C1_witness :
    check ([52] ++ (START_SEQ ++ [57, 51] ++ END_SEQ) ++ (START_SEQ ++ [50] ++ END_SEQ)) =
      (Except.ok [57, 51], START_SEQ ++ [50] ++ END_SEQ) :=
  claim_C1_check_extracts_first_frame [52] [57, 51] [50] (by decide) (by decide)

/-- C7: on a buffer that contains the start marker but no end marker, check
returns the Incomplete control signal (no other error), and the buffer it
leaves is a suffix of the original — only leading bytes of the start-marker
resynchronization are consumed. -/
theorem claim_C7_check_incomplete_without_end (b : List Nat)
    (_hstart : START_SEQ <:+: b) (hend : ¬ END_SEQ <:+: b) :
    (check b).1 = Except.error FrameCheckError.Incomplete ∧ (check b).2 <:+ b := by
  have hsuf0 := resync_suffix b
  rcases hr : resync b with ⟨buf, f⟩
  rw [hr] at hsuf0
  cases f with
  | false =>
    simp only [check, hr]
    exact ⟨trivial, hsuf0⟩
  | true =>
    cases hfe : findEnd buf with
    | some i => exact absurd ((endseq_of_findEnd_some buf i hfe).trans hsuf0.isInfix) hend
    | none =>
      simp only [check, hr, hfe]
      exact ⟨trivial, hsuf0⟩

/-- Witness for C7 at the buffer "OK 9 93". -/
theorem claim_C7_witness :
    (check [79, 75, 32, 57, 32, 57, 51]).1 = Except.error FrameCheckError.Incomplete ∧
      (check [79, 75, 32, 57, 32, 57, 51]).2 <:+ [79, 75, 32, 57, 32, 57, 51] :=
  claim_C7_check_incomplete_without_end [79, 75, 32, 57, 32, 57, 51] (by decide) (by decide)

/-- C9: whenever check reports Incomplete, the buffer it leaves behind has
length at most the start-marker length or begins with the start marker; in
particular a buffer of exactly the five marker bytes is reported Incomplete
with those bytes retained (covered by the witness below). -/
theorem claim_C9_check_incomplete_invariant (b : List Nat)
    (h : (check b).1 = Except.error FrameCheckError.Incomplete) :
    (check b).2.length ≤ START_SEQ.length ∨ START_SEQ <+: (check b).2 := by
  rcases hr : resync b with ⟨buf, f⟩
  cases f with
  | false =>
    have hlen := resync_not_found b (by rw [hr])
    rw [hr] at hlen
    left
    simp only [check, hr]
    exact hlen
  | true =>
    have hpre := resync_found b (by rw [hr])
    rw [hr] at hpre
    cases hfe : findEnd buf with
    | some i =>
      exfalso
      simp only [check, hr, hfe] at h
      exact Except.noConfusion h
    | none =>
      right
      simp only [check, hr, hfe]
      exact hpre.1

/-- Witness for C9 at the buffer holding exactly the five start-marker bytes:
check reports Incomplete and those bytes are retained. -/
theorem claim_C9_witness :
    (check [79, 75, 32, 57, 32]).2.length ≤ START_SEQ.length ∨
      START_SEQ <+: (check [79, 75, 32, 57, 32]).2 :=
  claim_C9_check_incomplete_invariant [79, 75, 32, 57, 32] (by rfl)

/-! ### Claim theorems about field decoding and encoding -/

/-- C2: parsing the payload "50 1 4 193 65" succeeds with id 50, sensor type
1, both battery flags clear, temperature (4 * 256 + 193 - 1000) / 10 = 21.7,
and humidity 65.  (The f32 of the source is modelled exactly; the source test
asserts the same value against the f32 literal 21.7.) -/
theorem claim_C2_parse_example :
    parse [53, 48, 32, 49, 32, 52, 32, 49, 57, 51, 32, 54, 53] =
      ParseOutcome.ok
        { id := 50, sensor_type := 1, new_battery := false, weak_battery := false,
          temperature := 217 / 10, humidity := 65 } := by
  have h : ((((4 * 256) % 65536 + 193) % 65536 : Nat) - (1000 : ℚ)) / 10 = 217 / 10 := by
    norm_num
  calc parse [53, 48, 32, 49, 32, 52, 32, 49, 57, 51, 32, 54, 53]
      = ParseOutcome.ok
        { id := 50, sensor_type := 1, new_battery := false, weak_battery := false,
          temperature := ((((4 * 256) % 65536 + 193) % 65536 : Nat) - (1000 : ℚ)) / 10,
          humidity := 65 } := by rfl
    _ = ParseOutcome.ok
        { id := 50, sensor_type := 1, new_battery := false, weak_battery := false,
          temperature := 217 / 10, humidity := 65 } := by rw [h]

/-- C10: parse does not restrict the temperature fields to the byte range; on
the validated payload "50 1 300 0 65" the 16-bit shift of the third field
overflows (300 * 256 is 76800, at least 65536) and decode succeeds with the
temperature computed from the value wrapped modulo 2 ^ 16 (11264, giving
1026.4) rather than returning a range error. -/
theorem claim_C10_temperature_wraps :
    parse [53, 48, 32, 49, 32, 51, 48, 48, 32, 48, 32, 54, 53] =
      ParseOutcome.ok
        { id := 50, sensor_type := 1, new_battery := false, weak_battery := false,
          temperature := 5132 / 5, humidity := 65 } ∧
    65536 ≤ 300 * 256 ∧ (300 * 256) % 65536 = 11264 ∧
    ((11264 : ℚ) - 1000) / 10 = 5132 / 5 := by
  refine ⟨?_, by norm_num, by norm_num, by norm_num⟩
  have h : ((((300 * 256) % 65536 + 0) % 65536 : Nat) - (1000 : ℚ)) / 10 = 5132 / 5 := by
    norm_num
  calc parse [53, 48, 32, 49, 32, 51, 48, 48, 32, 48, 32, 54, 53]
      = ParseOutcome.ok
        { id := 50, sensor_type := 1, new_battery := false, weak_battery := false,
          temperature := ((((300 * 256) % 65536 + 0) % 65536 : Nat) - (1000 : ℚ)) / 10,
          humidity := 65 } := by rfl
    _ = ParseOutcome.ok
        { id := 50, sensor_type := 1, new_battery := false, weak_battery := false,
          temperature := 5132 / 5, humidity := 65 } := by rw [h]

/-- C8: a point with no tags, no fields and no timestamp renders as the
measurement name followed by a single trailing space, for every measurement
name; rendering is total on empty collections. -/
theorem claim_C8_empty_point_renders (m : String) :
    (LineProtocol.new m).render = m ++ " " := by
  have h : String.intercalate "," ([] : List String) = "" := rfl
  simp [LineProtocol.render, LineProtocol.new, renderTime, String.join, h]

/-- C6: converting the record with id 50, sensor type 1, both battery flags
clear, temperature 21.5 and humidity 65 through the adapter, then rendering
with the timestamp omitted, yields exactly the expected line; the adapter
itself always attaches the wall-clock value captured at conversion as the
timestamp. -/
theorem claim_C6_lineprotocol_roundtrip (now : Int) :
    ((JeeLinkFrame.to_lineprotocol
        { id := 50, sensor_type := 1, new_battery := false, weak_battery := false,
          temperature := 43 / 2, humidity := 65 } now).add_time none).render =
      "tempHum,sensorId=50,sensorType=1 temperature=21.5,humidity=65u,weak_battery=false,new_battery=false"
    ∧ (JeeLinkFrame.to_lineprotocol
        { id := 50, sensor_type := 1, new_battery := false, weak_battery := false,
          temperature := 43 / 2, humidity := 65 } now).time = some now := by
  constructor
  · have hd : ((43 : ℚ) / 2).den = 2 := by norm_num [Rat.den]
    have hm : ((43 : ℚ) / 2 * 10).den = 1 := by norm_num
    have hn : ((43 : ℚ) / 2 * 10).num = 215 := by norm_num
    simp [JeeLinkFrame.to_lineprotocol, LineProtocol.new, LineProtocol.add_tag,
      LineProtocol.add_value, LineProtocol.add_time, LineProtocol.render, Item.render,
      LineProtocolValue.render, renderTime, fmtFloat, hd, hm, hn, String.join]
    rfl
  · rfl

/-! ### Lemmas about splitting and integer parsing -/

theorem splitSp_ne_nil (l : List Nat) : splitSp l ≠ [] := by
  cases l with
  | nil => simp [splitSp]
  | cons c rest =>
    rw [splitSp]
    by_cases h : c = 32
    · simp [h]
    · rw [if_neg h]
      cases hs : splitSp rest with
      | nil => simp
      | cons f fs => simp

theorem length_splitSp (l : List Nat) :
    (splitSp l).length = (l.filter (fun c => c == 32)).length + 1 := by
  induction l with
  | nil => simp [splitSp]
  | cons c rest ih =>
    by_cases h : c = 32
    · simp [splitSp, h, List.filter_cons, ih]
    · cases hs : splitSp rest with
      | nil => exact absurd hs (splitSp_ne_nil rest)
      | cons f fs =>
        rw [splitSp, if_neg h, hs]
        rw [hs] at ih
        have hc : (c == 32) = false := by simp [h]
        simp only [List.filter_cons, hc, List.length_cons] at ih ⊢
        simpa using ih

theorem mem_splitSp (l : List Nat) (c : Nat) (hc : c ∈ l) (h32 : c ≠ 32) :
    ∃ f ∈ splitSp l, c ∈ f := by
  induction l with
  | nil => cases hc
  | cons a rest ih =>
    by_cases ha : a = 32
    · rcases List.mem_cons.mp hc with rfl | hmem
      · exact absurd ha h32
      · obtain ⟨f, hf, hcf⟩ := ih hmem
        refine ⟨f, ?_, hcf⟩
        rw [splitSp, if_pos ha]
        exact List.mem_cons_of_mem _ hf
    · cases hs : splitSp rest with
      | nil => exact absurd hs (splitSp_ne_nil rest)
      | cons f0 fs =>
        rcases List.mem_cons.mp hc with rfl | hmem
        · refine ⟨c :: f0, ?_, List.mem_cons_self c f0⟩
          rw [splitSp, if_neg ha, hs]
          exact List.mem_cons_self _ _
        · obtain ⟨f, hf, hcf⟩ := ih hmem
          rw [hs] at hf
          rcases List.mem_cons.mp hf with rfl | hf'
          · refine ⟨a :: f, ?_, List.mem_cons_of_mem a hcf⟩
            rw [splitSp, if_neg ha, hs]
            exact List.mem_cons_self _ _
          · refine ⟨f, ?_, hcf⟩
            rw [splitSp, if_neg ha, hs]
            exact List.mem_cons_of_mem _ hf'

theorem mem_stripPlus (s : List Nat) (c : Nat) (hc : c ∈ s) (hplus : c ≠ 43) :
    c ∈ stripPlus s := by
  cases s with
  | nil => cases hc
  | cons a rest =>
    rw [stripPlus]
    by_cases ha : a = 43
    · rw [if_pos ha]
      rcases List.mem_cons.mp hc with rfl | h
      · exact absurd ha hplus
      · exact h
    · rw [if_neg ha]
      exact hc

theorem digitsToNat_none_of_bad (l : List Nat) (c : Nat) (hc : c ∈ l)
    (hnum : isNumericB c = false) : digitsToNat l = none := by
  have h1 : ¬ (l = []) := by rintro rfl; cases hc
  have h2 : ¬ (l.all isNumericB = true) := by
    intro hall
    have := List.all_eq_true.mp hall c hc
    rw [hnum] at this
    exact Bool.noConfusion this
  simp [digitsToNat, h1, h2]

theorem parseUInt_none_of_bad (bound : Nat) (f : List Nat) (c : Nat) (hc : c ∈ f)
    (hnum : isNumericB c = false) (hplus : c ≠ 43) : parseUInt bound f = none := by
  rw [parseUInt, digitsToNat_none_of_bad (stripPlus f) c (mem_stripPlus f c hc hplus) hnum]

theorem filter_length_mono (l : List Nat) (p q : Nat → Bool)
    (h : ∀ a ∈ l, p a = true → q a = true) :
    (l.filter p).length ≤ (l.filter q).length := by
  induction l with
  | nil => simp
  | cons a rest ih =>
    have ih' := ih (fun x hx hp => h x (List.mem_cons_of_mem a hx) hp)
    by_cases hp : p a = true
    · have hq := h a (List.mem_cons_self a rest) hp
      simp only [List.filter_cons, hp, hq, if_true, List.length_cons]
      omega
    · have hp' : p a = false := by simp at hp; exact hp
      by_cases hq : q a = true
      · simp only [List.filter_cons, hp', hq, Bool.false_eq_true, if_false, if_true,
          List.length_cons]
        omega
      · have hq' : q a = false := by simp at hq; exact hq
        simp only [List.filter_cons, hp', hq', Bool.false_eq_true, if_false]
        exact ih'

/-! ### No-panic lemmas for the decoding cascade -/

theorem parseFields_ne_panic_of_five (f0 f1 f2 f3 f4 : List Nat) (rest : List (List Nat)) :
    parseFields (f0 :: f1 :: f2 :: f3 :: f4 :: rest) ≠ ParseOutcome.panic := by
  intro h
  simp only [parseFields, List.getElem?_cons_zero, List.getElem?_cons_succ] at h
  cases h0 : parseUInt 256 f0 <;> rw [h0] at h
  · simp at h
  cases h1 : parseUInt 256 f1 <;> rw [h1] at h
  · simp at h
  cases h2 : parseUInt 65536 f2 <;> rw [h2] at h
  · simp at h
  cases h3 : parseUInt 65536 f3 <;> rw [h3] at h
  · simp at h
  cases h4 : parseUInt 256 f4 <;> rw [h4] at h
  · simp at h
  · simp at h

theorem parseFields_ne_panic_of_fail (fields : List (List Nat)) (hlen : fields.length ≤ 4)
    (j : Nat) (f : List Nat) (hf : fields[j]? = some f)
    (hfail : ∀ bound, parseUInt bound f = none) :
    parseFields fields ≠ ParseOutcome.panic := by
  rcases fields with _ | ⟨g0, _ | ⟨g1, _ | ⟨g2, _ | ⟨g3, grest⟩⟩⟩⟩
  · simp at hf
  · rcases j with _ | j
    · simp only [List.getElem?_cons_zero, Option.some.injEq] at hf
      subst hf
      intro h
      simp only [parseFields, List.getElem?_cons_zero] at h
      rw [hfail 256] at h
      simp at h
    · simp at hf
  · rcases j with _ | ⟨_ | j⟩
    · simp only [List.getElem?_cons_zero, Option.some.injEq] at hf
      subst hf
      intro h
      simp only [parseFields, List.getElem?_cons_zero, List.getElem?_cons_succ] at h
      rw [hfail 256] at h
      simp at h
    · simp only [List.getElem?_cons_succ, List.getElem?_cons_zero, Option.some.injEq] at hf
      subst hf
      intro h
      simp only [parseFields, List.getElem?_cons_zero, List.getElem?_cons_succ] at h
      cases h0 : parseUInt 256 g0 <;> rw [h0] at h
      · simp at h
      · rw [hfail 256] at h
        simp at h
    · simp at hf
  · rcases j with _ | ⟨_ | ⟨_ | j⟩⟩
    · simp only [List.getElem?_cons_zero, Option.some.injEq] at hf
      subst hf
      intro h
      simp only [parseFields, List.getElem?_cons_zero, List.getElem?_cons_succ] at h
      rw [hfail 256] at h
      simp at h
    · simp only [List.getElem?_cons_succ, List.getElem?_cons_zero, Option.some.injEq] at hf
      subst hf
      intro h
      simp only [parseFields, List.getElem?_cons_zero, List.getElem?_cons_succ] at h
      cases h0 : parseUInt 256 g0 <;> rw [h0] at h
      · simp at h
      · rw [hfail 256] at h
        simp at h
    · simp only [List.getElem?_cons_succ, List.getElem?_cons_zero, Option.some.injEq] at hf
      subst hf
      intro h
      simp only [parseFields, List.getElem?_cons_zero, List.getElem?_cons_succ] at h
      cases h0 : parseUInt 256 g0 <;> rw [h0] at h
      · simp at h
      cases h1 : parseUInt 256 g1 <;> rw [h1] at h
      · simp at h
      · rw [hfail 65536] at h
        simp at h
    · simp at hf
  · cases grest with
    | cons g4 t => simp at hlen
    | nil =>
      rcases j with _ | ⟨_ | ⟨_ | ⟨_ | j⟩⟩⟩
      · simp only [List.getElem?_cons_zero, Option.some.injEq] at hf
        subst hf
        intro h
        simp only [parseFields, List.getElem?_cons_zero, List.getElem?_cons_succ] at h
        rw [hfail 256] at h
        simp at h
      · simp only [List.getElem?_cons_succ, List.getElem?_cons_zero, Option.some.injEq] at hf
        subst hf
        intro h
        simp only [parseFields, List.getElem?_cons_zero, List.getElem?_cons_succ] at h
        cases h0 : parseUInt 256 g0 <;> rw [h0] at h
        · simp at h
        · rw [hfail 256] at h
          simp at h
      · simp only [List.getElem?_cons_succ, List.getElem?_cons_zero, Option.some.injEq] at hf
        subst hf
        intro h
        simp only [parseFields, List.getElem?_cons_zero, List.getElem?_cons_succ] at h
        cases h0 : parseUInt 256 g0 <;> rw [h0] at h
        · simp at h
        cases h1 : parseUInt 256 g1 <;> rw [h1] at h
        · simp at h
        · rw [hfail 65536] at h
          simp at h
      · simp only [List.getElem?_cons_succ, List.getElem?_cons_zero, Option.some.injEq] at hf
        subst hf
        intro h
        simp only [parseFields, List.getElem?_cons_zero, List.getElem?_cons_succ] at h
        cases h0 : parseUInt 256 g0 <;> rw [h0] at h
        · simp at h
        cases h1 : parseUInt 256 g1 <;> rw [h1] at h
        · simp at h
        cases h2 : parseUInt 65536 g2 <;> rw [h2] at h
        · simp at h
        · rw [hfail 65536] at h
          simp at h
      · simp at hf

theorem validate_ok_facts (b : List Nat) (hv : validate b = Except.ok ()) :
    b.all frameCharOk = true ∧ (b.filter isWhitespaceB).length = 4 := by
  by_cases hall : b.all frameCharOk = true
  · by_cases hws : (b.filter isWhitespaceB).length = 4
    · exact ⟨hall, hws⟩
    · rw [validate, if_neg (by simp [hall]), if_pos hws] at hv
      exact Except.noConfusion hv
  · rw [validate, if_pos (by simp [hall])] at hv
    exact Except.noConfusion hv

theorem parse_no_panic (b : List Nat) : parse b ≠ ParseOutcome.panic := by
  unfold parse
  cases hv : validate b with
  | error e => cases e <;> simp
  | ok u =>
    cases u
    obtain ⟨hall, hws⟩ := validate_ok_facts b hv
    simp only []
    have hsp_le : (b.filter (fun c => c == 32)).length ≤ 4 := by
      have := filter_length_mono b (fun c => c == 32) isWhitespaceB
        (fun a _ hpa => by
          have : a = 32 := by simpa using hpa
          simp [isWhitespaceB, this])
      omega
    by_cases hsp : (b.filter (fun c => c == 32)).length = 4
    · have hlen5 : (splitSp b).length = 5 := by rw [length_splitSp, hsp]
      rcases hsf : splitSp b with _ | ⟨g0, _ | ⟨g1, _ | ⟨g2, _ | ⟨g3, _ | ⟨g4, grest⟩⟩⟩⟩⟩ <;>
        rw [hsf] at hlen5 <;> simp at hlen5
      exact parseFields_ne_panic_of_five g0 g1 g2 g3 g4 grest
    · have hex : ∃ c ∈ b, isWhitespaceB c = true ∧ c ≠ 32 := by
        by_contra hno
        push_neg at hno
        have hmono := filter_length_mono b isWhitespaceB (fun c => c == 32)
          (fun a ha hw => by
            have := hno a ha hw
            simp [this])
        omega
      obtain ⟨c, hcb, hcw, hc32⟩ := hex
      have hcw' : 9 ≤ c ∧ c ≤ 13 := by
        simp [isWhitespaceB] at hcw
        rcases hcw with rfl | hr
        · exact absurd rfl hc32
        · exact hr
      have hcnum : isNumericB c = false := by
        simp [isNumericB]
        omega
      have hcplus : c ≠ 43 := by omega
      obtain ⟨f, hfmem, hcf⟩ := mem_splitSp b c hcb hc32
      obtain ⟨⟨j, hj⟩, hget⟩ := List.get_of_mem hfmem
      have hf' : (splitSp b)[j]? = some f := by
        rw [List.getElem?_eq_getElem hj]
        simpa using hget
      have hfail : ∀ bound, parseUInt bound f = none := fun bound =>
        parseUInt_none_of_bad bound f c hcf hcnum hcplus
      have hlen4 : (splitSp b).length ≤ 4 := by
        rw [length_splitSp]
        omega
      exact parseFields_ne_panic_of_fail (splitSp b) hlen4 j f hf' hfail

/-- C5: for every payload, decoding never reaches an out-of-range index
access — any malformed field count forces an earlier integer-parse failure,
so every failure propagates from parse as a returned error, not a default
value and not an abort; in particular the payload "1 2 3 4" followed by a
tab and "5" (four whitespace separators, not all spaces, hence fewer than
five space-separated fields) yields an integer-parse error. -/
theorem claim_C5_decode_failures_propagate :
    (∀ b, parse b ≠ ParseOutcome.panic) ∧
      parse [49, 32, 50, 32, 51, 32, 52, 9, 53] = ParseOutcome.error ParseError.intParse :=
  ⟨parse_no_panic, by rfl⟩

/-- Witness for C5 at the empty payload. -/
theorem claim_C5_witness : parse [] ≠ ParseOutcome.panic :=
  claim_C5_decode_failures_propagate.1 []

/-! ### Claim theorems about validation -/

/-- C4 counterexample: the payload " 1 2 3 4" (leading space) has four
whitespace-separated fields, not five, yet validation accepts it — the source
counts whitespace characters, it does not count fields. -/
theorem claim_C4_counterexample :
    wsFieldCount [32, 49, 32, 50, 32, 51, 32, 52] ≠ 5 ∧
      validate [32, 49, 32, 50, 32, 51, 32, 52] = Except.ok () :=
  ⟨by decide, by rfl⟩

/-- C4 (amended): validation precedes field parsing and rejects with a
ValidationError every payload containing a character that is not numeric,
whitespace or control, and every payload whose count of whitespace characters
differs from 4; it does not inspect the field structure, so a payload with
leading, trailing or consecutive whitespace passes validation whenever it has
exactly 4 whitespace characters. -/
theorem claim_C4_validate_amended (b : List Nat) :
    (validate b = Except.error (FrameValidation.InvalidChars b) ↔
      ¬ b.all frameCharOk = true) ∧
    (b.all frameCharOk = true →
      (validate b = Except.error (FrameValidation.WrongNumberOfFields b) ↔
        (b.filter isWhitespaceB).length ≠ 4)) ∧
    (validate b = Except.error (FrameValidation.InvalidChars b) →
      parse b = ParseOutcome.error ParseError.invalidChars) ∧
    (validate b = Except.error (FrameValidation.WrongNumberOfFields b) →
      parse b = ParseOutcome.error ParseError.wrongNumberOfFields) := by
  by_cases hall : b.all frameCharOk = true
  · by_cases hws : (b.filter isWhitespaceB).length = 4
    · have hv : validate b = Except.ok () := by
        rw [validate, if_neg (by simp [hall]), if_neg (by simpa using hws)]
      simp [parse, hv, hall, hws]
    · have hv : validate b = Except.error (FrameValidation.WrongNumberOfFields b) := by
        rw [validate, if_neg (by simp [hall]), if_pos hws]
      simp [parse, hv, hall, hws]
  · have hv : validate b = Except.error (FrameValidation.InvalidChars b) := by
      rw [validate, if_pos (by simp [hall])]
    simp [parse, hv, hall]
/-- Witness for C4 at the payload "1 " (one whitespace character): the
wrong-field-count rejection applies exactly when the whitespace count is
not 4. -/
theorem claim_C4_witness :
    validate [49, 32] = Except.error (FrameValidation.WrongNumberOfFields [49, 32]) ↔
      ([49, 32].filter isWhitespaceB).length ≠ 4 :=
  (claim_C4_validate_amended [49, 32]).2.1 (by rfl)

/-! ### Lemmas about the read loops -/

theorem listenerParse_snd (b : List Nat) : (listenerParse b).2 = (check b).2 := by
  rcases hc : check b with ⟨r, buf2⟩
  rcases r with e | payload
  · cases e <;> simp [listenerParse, hc]
  · cases hp : parse payload <;> simp [listenerParse, hc, hp]

theorem listenerParse_noFrame_inv (b : List Nat)
    (h : (listenerParse b).1 = ListenerStep.noFrame) :
    (check b).1 = Except.error FrameCheckError.Incomplete := by
  rcases hc : check b with ⟨r, buf2⟩
  rcases r with e | payload
  · cases e with
    | Incomplete => rfl
    | Other s =>
      exfalso
      simp [listenerParse, hc] at h
  · exfalso
    simp only [listenerParse, hc] at h
    cases hp : parse payload <;> rw [hp] at h <;> simp at h

theorem listenerParse_noFrame_idem (b : List Nat)
    (h : (listenerParse b).1 = ListenerStep.noFrame) :
    listenerParse ((listenerParse b).2) = (ListenerStep.noFrame, (listenerParse b).2) := by
  have h1 := listenerParse_noFrame_inv b h
  have h2 := listenerParse_snd b
  rw [h2]
  have hidem := check_idem b h1
  simp [listenerParse, hidem]

theorem readFrameTTYPort_congr (b : List Nat)
    (h : (listenerParse b).1 = ListenerStep.noFrame) (script : List ReadOutcome) :
    readFrameTTYPort script b = readFrameTTYPort script ((listenerParse b).2) := by
  have hid := listenerParse_noFrame_idem b h
  rcases hlp : listenerParse b with ⟨step, buf2⟩
  rw [hlp] at h hid
  have hstep : step = ListenerStep.noFrame := h
  subst hstep
  have hid2 : listenerParse buf2 = (ListenerStep.noFrame, buf2) := hid
  show readFrameTTYPort script b = readFrameTTYPort script buf2
  cases script with
  | nil => simp only [readFrameTTYPort, loopStep, hlp, hid2]
  | cons r rest =>
    cases r with
    | ok bs => simp only [readFrameTTYPort, loopStep, hlp, hid2]
    | timedOut => simp only [readFrameTTYPort, loopStep, hlp, hid2]
    | ioErr => simp only [readFrameTTYPort, loopStep, hlp, hid2]

theorem readFrameTTYPort_eq_loopStep (script : List ReadOutcome) (b : List Nat) :
    ∃ k, readFrameTTYPort script b = loopStep (listenerParse b) k := by
  cases script with
  | nil => exact ⟨_, rfl⟩
  | cons r rest =>
    cases r with
    | ok bs => exact ⟨_, rfl⟩
    | timedOut => exact ⟨_, rfl⟩
    | ioErr => exact ⟨_, rfl⟩

theorem readFrameTTYPort_skip_timeouts (n : Nat) (script : List ReadOutcome) (b : List Nat) :
    readFrameTTYPort (List.replicate n ReadOutcome.timedOut ++ script) b =
      readFrameTTYPort script b := by
  induction n generalizing b with
  | zero => simp
  | succ n ih =>
    rw [List.replicate_succ, List.cons_append]
    rcases hlp : listenerParse b with ⟨step, buf2⟩
    cases step with
    | noFrame =>
      have h : (listenerParse b).1 = ListenerStep.noFrame := by rw [hlp]
      have hstep : readFrameTTYPort
          (ReadOutcome.timedOut :: (List.replicate n ReadOutcome.timedOut ++ script)) b =
          readFrameTTYPort (List.replicate n ReadOutcome.timedOut ++ script) buf2 := by
        simp only [readFrameTTYPort, loopStep, hlp]
      rw [hstep, ih]
      have hcongr := readFrameTTYPort_congr b h script
      rw [hlp] at hcongr
      exact hcongr.symm
    | frame f =>
      obtain ⟨k, hk⟩ := readFrameTTYPort_eq_loopStep script b
      simp only [readFrameTTYPort, loopStep, hlp, hk]
    | failed =>
      obtain ⟨k, hk⟩ := readFrameTTYPort_eq_loopStep script b
      simp only [readFrameTTYPort, loopStep, hlp, hk]
    | panicked =>
      obtain ⟨k, hk⟩ := readFrameTTYPort_eq_loopStep script b
      simp only [readFrameTTYPort, loopStep, hlp, hk]

theorem readFrameTTYPort_skip_zero_reads (n : Nat) (script : List ReadOutcome) (b : List Nat) :
    readFrameTTYPort (List.replicate n (ReadOutcome.ok []) ++ script) b =
      readFrameTTYPort script b := by
  induction n generalizing b with
  | zero => simp
  | succ n ih =>
    rw [List.replicate_succ, List.cons_append]
    rcases hlp : listenerParse b with ⟨step, buf2⟩
    cases step with
    | noFrame =>
      have h : (listenerParse b).1 = ListenerStep.noFrame := by rw [hlp]
      have hstep : readFrameTTYPort
          (ReadOutcome.ok [] :: (List.replicate n (ReadOutcome.ok []) ++ script)) b =
          readFrameTTYPort (List.replicate n (ReadOutcome.ok []) ++ script) buf2 := by
        simp only [readFrameTTYPort, loopStep, hlp]
        rfl
      rw [hstep, ih]
      have hcongr := readFrameTTYPort_congr b h script
      rw [hlp] at hcongr
      exact hcongr.symm
    | frame f =>
      obtain ⟨k, hk⟩ := readFrameTTYPort_eq_loopStep script b
      simp only [readFrameTTYPort, loopStep, hlp, hk]
    | failed =>
      obtain ⟨k, hk⟩ := readFrameTTYPort_eq_loopStep script b
      simp only [readFrameTTYPort, loopStep, hlp, hk]
    | panicked =>
      obtain ⟨k, hk⟩ := readFrameTTYPort_eq_loopStep script b
      simp only [readFrameTTYPort, loopStep, hlp, hk]

/-! ### Claim theorems about the read loops -/

/-- C3 counterexample: the blocking TTYPort read loop does not return the
clean end-of-stream result when a read yields zero bytes with an empty
buffer — it treats the zero-byte read as no progress and keeps looping (in
this finite-script model it is still awaiting a further read), unlike the
suspending SerialStream loop, which does return StreamEnded there. -/
theorem claim_C3_counterexample :
    readFrameTTYPort [ReadOutcome.ok []] [] ≠ ReadFrameResult.streamEnded ∧
      readFrameTTYPort [ReadOutcome.ok []] [] = ReadFrameResult.noMoreReads ∧
      readFrameSerialStream [ReadOutcome.ok []] [] = ReadFrameResult.streamEnded := by
  refine ⟨?_, by rfl, by rfl⟩
  intro h
  exact ReadFrameResult.noConfusion h

/-- C3 (amended): the zero-byte clauses hold for the suspending SerialStream
read path — zero bytes with an empty buffer returns StreamEnded, zero bytes
with a non-empty buffer returns ConnectionLost — while the blocking TTYPort
path treats timeouts and zero-byte reads alike as no progress and retries, so
a source that times out repeatedly before eventually delivering a full frame
eventually yields that frame without error. -/
theorem claim_C3_read_loop_amended :
    (∀ s b, (listenerParse b).1 = ListenerStep.noFrame → (listenerParse b).2 = [] →
      readFrameSerialStream (ReadOutcome.ok [] :: s) b = ReadFrameResult.streamEnded) ∧
    (∀ s b, (listenerParse b).1 = ListenerStep.noFrame → (listenerParse b).2 ≠ [] →
      readFrameSerialStream (ReadOutcome.ok [] :: s) b = ReadFrameResult.connectionLost) ∧
    (∀ n s b, readFrameTTYPort (List.replicate n ReadOutcome.timedOut ++ s) b =
      readFrameTTYPort s b) ∧
    (∀ n s b, readFrameTTYPort (List.replicate n (ReadOutcome.ok []) ++ s) b =
      readFrameTTYPort s b) ∧
    (∀ n s b f, readFrameTTYPort s b = ReadFrameResult.frame f →
      readFrameTTYPort (List.replicate n ReadOutcome.timedOut ++ s) b =
        ReadFrameResult.frame f) := by
  refine ⟨?_, ?_, readFrameTTYPort_skip_timeouts, readFrameTTYPort_skip_zero_reads, ?_⟩
  · intro s b h1 h2
    rcases hlp : listenerParse b with ⟨step, buf2⟩
    rw [hlp] at h1 h2
    have hstep : step = ListenerStep.noFrame := h1
    subst hstep
    have hbuf : buf2 = [] := h2
    subst hbuf
    simp [readFrameSerialStream, loopStep, hlp]
  · intro s b h1 h2
    rcases hlp : listenerParse b with ⟨step, buf2⟩
    rw [hlp] at h1 h2
    have hstep : step = ListenerStep.noFrame := h1
    subst hstep
    have hbuf : buf2 ≠ [] := h2
    simp [readFrameSerialStream, loopStep, hlp, hbuf]
  · intro n s b f h
    rw [readFrameTTYPort_skip_timeouts n s b, h]

/-- Witness for C3 (amended) at an empty buffer and a single zero-byte read
on the suspending path. -/
theorem claim_C3_witness :
    readFrameSerialStream [ReadOutcome.ok []] [] = ReadFrameResult.streamEnded :=
  claim_C3_read_loop_amended.1 [] [] (by rfl) (by rfl)
